/-
  Verification development for the SocialFlow client-side state engine
  (src/a.js, class ImmutableStateManager).

  The engine's state (`this._state`) is a plain JavaScript object whose
  fields hold primitives, plain objects, arrays, Maps and Sets.  We embed
  JavaScript values shallowly as the inductive `JSValue`.  Compound values
  (objects, arrays, Maps, Sets) carry an allocation identity `id : Nat`
  modelling JavaScript reference identity: `===` on two compound values is
  true exactly when they are the same allocation.  Distinct allocations are
  modelled by distinct ids; operations that allocate draw fresh ids from the
  manager's allocation counter.

  Numbers are modelled as `Int` (the program only uses integral timestamps,
  counts and indexes; no NaN/±0 subtleties arise).  JSON serialization
  (`JSON.stringify`, used by `isEqual`) is modelled by `jsonStringify`;
  string escaping is omitted since it is applied identically on both sides
  of every comparison and does not change equality of serializations.
-/
import Mathlib

namespace SocialFlow

/-- A JavaScript value, as used by the state manager.  Compound values
carry an allocation id modelling reference identity. -/
inductive JSValue : Type where
  | vUndef : JSValue
  | vNull : JSValue
  | vBool : Bool → JSValue
  | vNum : Int → JSValue
  | vStr : String → JSValue
  | vObj : Nat → List (String × JSValue) → JSValue
  | vArr : Nat → List JSValue → JSValue
  | vMap : Nat → List (JSValue × JSValue) → JSValue
  | vSet : Nat → List JSValue → JSValue
  deriving BEq, Repr

open JSValue

/-- JavaScript strict equality `===`.  Primitives compare by value;
objects, arrays, Maps and Sets compare by reference (allocation id).
`undefined === undefined` and `null === null` are true. -/
def tripleEq : JSValue → JSValue → Bool
  | vUndef, vUndef => true
  | vNull, vNull => true
  | vBool a, vBool b => a == b
  | vNum a, vNum b => a == b
  | vStr a, vStr b => a == b
  | vObj i _, vObj j _ => i == j
  | vArr i _, vArr j _ => i == j
  | vMap i _, vMap j _ => i == j
  | vSet i _, vSet j _ => i == j
  | _, _ => false

/-- `typeof` of a value: `typeof null` is `"object"`, as are Maps, Sets,
arrays and plain objects. -/
def typeofJS : JSValue → String
  | vUndef => "undefined"
  | vNull => "object"
  | vBool _ => "boolean"
  | vNum _ => "number"
  | vStr _ => "string"
  | vObj _ _ => "object"
  | vArr _ _ => "object"
  | vMap _ _ => "object"
  | vSet _ _ => "object"

/-- JavaScript truthiness of a value. -/
def jsTruthy : JSValue → Bool
  | vUndef => false
  | vNull => false
  | vBool b => b
  | vNum n => !(n == 0)
  | vStr s => !s.isEmpty
  | _ => true

/-- A plain JavaScript object, as an ordered list of own enumerable
string-keyed fields (insertion order, unique keys). -/
abbrev Obj : Type := List (String × JSValue)

/-- First field with the given name, if any. -/
def lookupField : List (String × JSValue) → String → Option JSValue
  | [], _ => none
  | kv :: rest, k => if kv.1 == k then some kv.2 else lookupField rest k

/-- Property access `o[k]`: the field's value, or `undefined` when absent. -/
def objGet (o : List (String × JSValue)) (k : String) : JSValue :=
  (lookupField o k).getD vUndef

/-- `Object.keys`, in insertion order. -/
def objKeys (o : List (String × JSValue)) : List String := o.map Prod.fst

/-- The fields of a value that is a plain object (empty list otherwise). -/
def objFields : JSValue → List (String × JSValue)
  | vObj _ fs => fs
  | _ => []

/-- The entries of a value that is a Map (empty list otherwise). -/
def mapEntries : JSValue → List (JSValue × JSValue)
  | vMap _ es => es
  | _ => []

/-- The elements of a value that is a Set (empty list otherwise). -/
def setElems : JSValue → List JSValue
  | vSet _ xs => xs
  | _ => []

/-- The elements of a value that is an Array (empty list otherwise). -/
def arrElems : JSValue → List JSValue
  | vArr _ xs => xs
  | _ => []

/-- `Map.prototype.get`: value of the first entry whose key is `===` the
requested key (JS maps keep keys unique), or `undefined`. -/
def mapGet : List (JSValue × JSValue) → JSValue → JSValue
  | [], _ => vUndef
  | kv :: rest, k => if tripleEq kv.1 k then kv.2 else mapGet rest k

/-- `Set.prototype.has`, with `===` element comparison. -/
def setHas (xs : List JSValue) (x : JSValue) : Bool :=
  xs.any (fun y => tripleEq y x)

/-- `Map.prototype.set` on an entry list: overwrite in place if the key is
present, else append. -/
def mapSet : List (JSValue × JSValue) → JSValue → JSValue → List (JSValue × JSValue)
  | [], k, v => [(k, v)]
  | kv :: rest, k, v =>
    if tripleEq kv.1 k then (kv.1, v) :: rest else kv :: mapSet rest k v

/-- `Set.prototype.add` on an element list: append unless already present. -/
def setAdd (acc : List JSValue) (x : JSValue) : List JSValue :=
  if setHas acc x then acc else acc ++ [x]

/-- `new Set(list)`: deduplicate, keeping the first occurrence of each
element (element identity is `===`/SameValueZero). -/
def setFromList (xs : List JSValue) : List JSValue :=
  xs.foldl setAdd []

/-- Does `c :: s` start with `p`? (helper for substring search). -/
def charsStartWith : List Char → List Char → Bool
  | _, [] => true
  | [], _ :: _ => false
  | c :: cs, p :: ps => c == p && charsStartWith cs ps

/-- Does `p` occur as a contiguous run inside `s`? -/
def charsContain : List Char → List Char → Bool
  | [], p => p.isEmpty
  | s@(_ :: cs), p => charsStartWith s p || charsContain cs p

/-- `String.prototype.includes`. -/
def strIncludes (s pat : String) : Bool :=
  charsContain s.data pat.data

/-
  `JSON.stringify`, as used by `isEqual` (src/a.js line 177).  It returns
  no string (`undefined`) for `undefined`; Maps and Sets serialize to
  `"\x7b\x7d"` (they have no own enumerable properties); object fields
  whose value is `undefined` are omitted; `undefined` array elements
  serialize as `null`.  String escaping is omitted: the serializer is
  applied identically to both sides of every comparison, so escaping never
  changes whether two serializations coincide.
-/
mutual

/-- `JSON.stringify` (`none` models returning `undefined`). -/
def jsonStringify : JSValue → Option String
  | vUndef => none
  | vNull => some "null"
  | vBool b => some (cond b "true" "false")
  | vNum n => some (toString n)
  | vStr s => some ("\"" ++ s ++ "\"")
  | vMap _ _ => some "\x7b\x7d"
  | vSet _ _ => some "\x7b\x7d"
  | vArr _ xs => some ("[" ++ String.intercalate "," (jsonArrayElems xs) ++ "]")
  | vObj _ fs => some ("\x7b" ++ String.intercalate "," (jsonObjFields fs) ++ "\x7d")

/-- Array elements: `undefined` becomes `null`. -/
def jsonArrayElems : List JSValue → List String
  | [] => []
  | x :: xs =>
    (match jsonStringify x with
     | some s => s
     | none => "null") :: jsonArrayElems xs

/-- Object fields: `undefined`-valued fields are dropped. -/
def jsonObjFields : List (String × JSValue) → List String
  | [] => []
  | (k, v) :: fs =>
    (match jsonStringify v with
     | some s => ["\"" ++ k ++ "\":" ++ s]
     | none => []) ++ jsonObjFields fs

end

/-- `ImmutableStateManager.isEqual` (src/a.js lines 167-178): `===` first;
two Maps compare by size plus per-entry lookup of the first Map's entries
in the second; two Sets by size plus membership of the first Set's
elements in the second; everything else (including a Map against a Set,
or against a plain object) by equality of JSON serializations. -/
def isEqual (a b : JSValue) : Bool :=
  if tripleEq a b then true
  else
    match a, b with
    | vMap _ ea, vMap _ eb =>
      ea.length == eb.length && ea.all (fun kv => tripleEq (mapGet eb kv.1) kv.2)
    | vSet _ xa, vSet _ xb =>
      xa.length == xb.length && xa.all (fun x => setHas xb x)
    | _, _ => jsonStringify a == jsonStringify b

/-- Insertion-order deduplication (`new Set([...])` on strings followed by
`Array.from`). -/
def dedupFirst (l : List String) : List String :=
  go l []
where
  go : List String → List String → List String
  | [], _ => []
  | k :: rest, seen =>
    if seen.contains k then go rest seen else k :: go rest (k :: seen)

/-- `ImmutableStateManager.getChangedKeys` (src/a.js lines 156-165): the
union of the two objects' keys, filtered to those whose values `isEqual`
rejects. -/
def getChangedKeys (previous current : Obj) : List String :=
  (dedupFirst (objKeys previous ++ objKeys current)).filter
    (fun k => !(isEqual (objGet previous k) (objGet current k)))

/-- The validation schema of `ImmutableStateManager.validateState`
(src/a.js lines 90-97): allowed `typeof` strings per key. -/
def schema : List (String × List String) :=
  [("user", ["object", "null"]),
   ("videos", ["object"]),
   ("likedVideos", ["object"]),
   ("savedVideos", ["object"]),
   ("online", ["boolean"]),
   ("ui", ["object"])]

/-- `ImmutableStateManager.validateState` (src/a.js lines 89-108).  Note
that it is applied to the object the updater returned — the partial
fields — not to the merged candidate snapshot. -/
def validateState (state : Obj) : Bool :=
  schema.all (fun kv => kv.2.contains (typeofJS (objGet state kv.1)))

/-- Object spread `\x7b...prev, ...patch\x7d`: fields of `prev` in order,
values overridden by `patch` where present, then the fields of `patch`
whose keys `prev` lacks, in `patch` order. -/
def mergeObj (prev patch : Obj) : Obj :=
  (prev.map (fun kv =>
    match lookupField patch kv.1 with
    | some v => (kv.1, v)
    | none => kv))
  ++ patch.filter (fun kv => (lookupField prev kv.1).isNone)

/-- A subscriber callback; `throws` says whether invoking it raises. -/
structure Callback where
  cbId : Nat
  throws : Bool
  deriving DecidableEq, Repr

/-- A record of one callback invocation: which callback ran, under which
subscription key (the wildcard key is `"*"`). -/
structure Invocation where
  cbId : Nat
  key : String
  deriving DecidableEq, Repr

/-- One entry of `this.history`. -/
structure HistEntry where
  timestamp : Int
  previous : Obj
  current : Obj

/-- The mutable fields of an `ImmutableStateManager`, plus the embedding's
allocation counter (`nextId`, modelling fresh JS heap identities) and the
current clock reading (`now`, modelling `Date.now()`). -/
structure Manager where
  snap : Obj
  subscribers : List (String × List Callback)
  history : List HistEntry
  isMutating : Bool
  nextId : Nat
  now : Int

/-- `this.maxHistoryLength` (src/a.js line 27). -/
def maxHistoryLength : Nat := 50

/-- `this.cacheTimeout` (src/a.js line 25). -/
def cacheTimeout : Int := 30000

/-- The callbacks registered under a key (`this.subscribers.get(key)`). -/
def subsFor (subs : List (String × List Callback)) (key : String) : List Callback :=
  match subs.find? (fun kv => kv.1 == key) with
  | some kv => kv.2
  | none => []

/-- `ImmutableStateManager.notifySubscribers` (src/a.js lines 128-154):
for each changed key, invoke its callbacks in order, catching and logging
any exception; then invoke every wildcard callback the same way.  Returns
the invocation log and the list of callback ids whose exception was
caught and logged. -/
def notifySubscribers (subs : List (String × List Callback))
    (previousState currentState : Obj) : List Invocation × List Nat :=
  let changed := getChangedKeys previousState currentState
  let keyed := changed.flatMap (fun k =>
    (subsFor subs k).map (fun cb => Invocation.mk cb.cbId k))
  let wild := (subsFor subs "*").map (fun cb => Invocation.mk cb.cbId "*")
  let caught :=
    (changed.flatMap (fun k => ((subsFor subs k).filter (·.throws)).map (·.cbId)))
    ++ ((subsFor subs "*").filter (·.throws)).map (·.cbId)
  (keyed ++ wild, caught)

/-- Errors raised by the engine.  `validationError` is the
`Error('Invalid state structure')` of src/a.js line 57 (the spec's
`StateValidationError`); `remoteError` is a failure of `apiRequest`. -/
inductive JSError where
  | validationError : JSError
  | remoteError : String → JSError
  deriving DecidableEq, Repr

/-- How the promise returned by `setState` settles. -/
inductive Outcome where
  | resolvedUndefined : Outcome
  | resolved : Obj → Outcome
  | rejected : JSError → Outcome

/-- The argument of `setState`: a function of the current state, or a
plain replacement value. -/
inductive Updater where
  | fn : (Obj → Obj) → Updater
  | val : Obj → Updater

/-- `typeof updater === 'function' ? updater(this._state) : updater`. -/
def applyUpdater : Updater → Obj → Obj
  | .fn f, s => f s
  | .val o, _ => o

/-- Result of one `setState` call: the manager afterwards, the promise's
settlement, and the notification logs of the commit (if any). -/
structure MutationResult where
  manager : Manager
  outcome : Outcome
  invoked : List Invocation
  subErrors : List Nat

/-- The synchronous head of `setState` (src/a.js lines 42-47): an
in-flight mutation makes the call return a resolved-undefined promise;
otherwise the guard flag is raised and the body is queued. -/
def submitCall (m : Manager) : Manager × Bool :=
  if m.isMutating then (m, false) else ({ m with isMutating := true }, true)

/-- The queued microtask body of `setState` (src/a.js lines 50-85),
entered with `isMutating` set: compute the updater's fields, validate
them (rejecting with the validation error on failure), else merge them
over the current snapshot, append a bounded history entry, publish, and
notify.  The debounced storage write is external and not modelled. -/
def runMutation (m : Manager) (u : Updater) : MutationResult :=
  let newState := applyUpdater u m.snap
  if !(validateState newState) then
    { manager := { m with isMutating := false },
      outcome := .rejected .validationError, invoked := [], subErrors := [] }
  else
    let previousState := m.snap
    let current := mergeObj previousState newState
    let hist0 := m.history ++ [⟨m.now, previousState, current⟩]
    let hist := if decide (maxHistoryLength < hist0.length) then hist0.tail else hist0
    let notif := notifySubscribers m.subscribers previousState current
    { manager := { m with snap := current, history := hist, isMutating := false },
      outcome := .resolved current, invoked := notif.1, subErrors := notif.2 }

/-- `ImmutableStateManager.setState` (src/a.js lines 41-87), with the
guard check and the microtask body run back to back (nothing else from
this engine can interleave between them). -/
def setState (m : Manager) (u : Updater) : MutationResult :=
  let (m1, accepted) := submitCall m
  if accepted then runMutation m1 u
  else { manager := m1, outcome := .resolvedUndefined, invoked := [], subErrors := [] }

/-- The synchronous guard heads of a burst of `setState` calls made in
one tick, in call order (each body only runs after the stack unwinds). -/
def submitPhase : Manager → List Updater → Manager × List Bool
  | m, [] => (m, [])
  | m, _ :: us =>
    let (m1, acc) := submitCall m
    let (m2, accs) := submitPhase m1 us
    (m2, acc :: accs)

/-- The deferred bodies of the same burst, in call order: an accepted
submission runs its mutation body; a dropped one already resolved with
`undefined`. -/
def runPhase : Manager → List (Updater × Bool) → Manager × List Outcome
  | m, [] => (m, [])
  | m, (u, acc) :: rest =>
    if acc then
      let r := runMutation m u
      let (m2, outs) := runPhase r.manager rest
      (m2, r.outcome :: outs)
    else
      let (m2, outs) := runPhase m rest
      (m2, Outcome.resolvedUndefined :: outs)

/-- N `setState` calls issued while earlier submissions are still in
flight (all guards run before any body), then the queued bodies. -/
def concurrentSubmits (m : Manager) (us : List Updater) : Manager × List Outcome :=
  let (m1, accs) := submitPhase m us
  runPhase m1 (us.zip accs)

/-- N `setState` calls issued sequentially, each after the previous one
settled. -/
def seqSubmits : Manager → List Updater → Manager × List Outcome
  | m, [] => (m, [])
  | m, u :: us =>
    let r := setState m u
    let (m2, outs) := seqSubmits r.manager us
    (m2, r.outcome :: outs)

/-- The snapshots a sequential chain of commits would produce, each
computed from its predecessor. -/
def chainSnaps : Obj → List Updater → List Obj
  | _, [] => []
  | s, u :: us =>
    let s2 := mergeObj s (applyUpdater u s)
    s2 :: chainSnaps s2 us

/-- Do all updaters of a sequential chain pass validation on the state
each one actually sees? -/
def allValidSeq : Obj → List Updater → Bool
  | _, [] => true
  | s, u :: us =>
    validateState (applyUpdater u s) && allValidSeq (mergeObj s (applyUpdater u s)) us

/-- The constructor's initial `this._state` (src/a.js lines 6-22);
`online` stands for `navigator.onLine`. -/
def initialSnap (online : Bool) : Obj :=
  [("user", vNull),
   ("videos", vMap 0 []),
   ("likedVideos", vSet 1 []),
   ("savedVideos", vSet 2 []),
   ("currentMediaIndexes", vMap 3 []),
   ("online", vBool online),
   ("pendingActions", vArr 4 []),
   ("cache", vMap 5 []),
   ("ui", vObj 6
     [("theme", vStr "dark"), ("language", vStr "tr"),
      ("videoQuality", vStr "auto"), ("autoplay", vBool true),
      ("notifications", vBool true)])]

/-- A freshly constructed manager. -/
def initialManager (online : Bool) : Manager :=
  { snap := initialSnap online, subscribers := [], history := [],
    isMutating := false, nextId := 7, now := 0 }

/-- `ImmutableStateManager.getWithCache` (src/a.js lines 180-199).
`producerData` is the value the asynchronous fetcher would produce; the
returned `Nat` counts how many times the fetcher was invoked.  The cache
entry read uses the current snapshot; `options.ttl || this.cacheTimeout`
falls back to the default when `ttl` is absent or `0` (falsy).  The store
runs through `setState` (un-awaited in the source, so its settlement is
not observed by the caller). -/
def getWithCache (m : Manager) (key : String) (producerData : JSValue)
    (ttlOpt : Option Int) : Manager × JSValue × Nat :=
  let cacheKey := "cache_" ++ key
  let now := m.now
  let cached := mapGet (mapEntries (objGet m.snap "cache")) (vStr cacheKey)
  let effTtl :=
    match ttlOpt with
    | some t => if t == 0 then cacheTimeout else t
    | none => cacheTimeout
  let hit :=
    match cached with
    | vObj _ fs =>
      (match objGet fs "timestamp" with
       | vNum t => decide (now - t < effTtl)
       | _ => false)
    | _ => false
  if hit then
    (m, objGet (objFields cached) "data", 0)
  else
    let entryId := m.nextId
    let mapId := m.nextId + 1
    let m1 := { m with nextId := m.nextId + 2 }
    let entry := vObj entryId [("data", producerData), ("timestamp", vNum now)]
    let r := setState m1 (.fn (fun s =>
      [("cache", vMap mapId (mapSet (mapEntries (objGet s "cache")) (vStr cacheKey) entry))]))
    (r.manager, producerData, 1)

/-- `ImmutableStateManager.invalidateCache` (src/a.js lines 201-210): one
mutation that copies the cache and deletes every key containing the
pattern as a substring (cache keys are strings by construction). -/
def invalidateCache (m : Manager) (pat : String) : Manager :=
  let mapId := m.nextId
  let m1 := { m with nextId := m.nextId + 1 }
  let r := setState m1 (.fn (fun s =>
    [("cache", vMap mapId ((mapEntries (objGet s "cache")).filter (fun kv =>
      !(match kv.1 with
        | vStr k => strIncludes k pat
        | _ => false))))]))
  r.manager

/-- `ImmutableStateManager.queueAction` (src/a.js lines 396-409).  The
action id is produced by `Math.random()` in the source and is modelled by
the explicit `newId` argument.  The storage write is external. -/
def queueAction (m : Manager) (ty : String) (data : JSValue) (newId : String) : Manager :=
  let actId := m.nextId
  let arrId := m.nextId + 1
  let m1 := { m with nextId := m.nextId + 2 }
  let action := vObj actId
    [("type", vStr ty), ("data", data), ("timestamp", vNum m.now), ("id", vStr newId)]
  let r := setState m1 (.fn (fun s =>
    [("pendingActions", vArr arrId (arrElems (objGet s "pendingActions") ++ [action]))]))
  r.manager

/-- The `id` field of an action, as a string. -/
def actionIdString (action : JSValue) : String :=
  match objGet (objFields action) "id" with
  | vStr s => s
  | _ => ""

/-- `ImmutableStateManager.processAction` (src/a.js lines 431-446):
dispatch on the action's `type`; `like` and `save` make a remote call
whose success is decided by the `remote` oracle (keyed by action id);
other types fall through the switch without any call. -/
def processAction (remote : String → Bool) (action : JSValue) :
    Except JSError Unit :=
  let ty := objGet (objFields action) "type"
  if tripleEq ty (vStr "like") || tripleEq ty (vStr "save") then
    if remote (actionIdString action) then Except.ok ()
    else Except.error (JSError.remoteError ("sync:" ++ actionIdString action))
  else
    Except.ok ()

/-- The `for...of` loop body of `syncPendingActions`: process each action
of the up-front copy in order; on success, remove it (by id) through a
mutation; on failure, log and `break`.  Returns the manager and the ids
of the actions attempted, in order. -/
def syncActionsLoop (remote : String → Bool) :
    Manager → List JSValue → Manager × List String
  | m, [] => (m, [])
  | m, action :: rest =>
    match processAction remote action with
    | .ok _ =>
      let arrId := m.nextId
      let m1 := { m with nextId := m.nextId + 1 }
      let aid := objGet (objFields action) "id"
      let r := setState m1 (.fn (fun s =>
        [("pendingActions", vArr arrId ((arrElems (objGet s "pendingActions")).filter
          (fun a => !(tripleEq (objGet (objFields a) "id") aid))))]))
      let next := syncActionsLoop remote r.manager rest
      (next.1, actionIdString action :: next.2)
    | .error _ => (m, [actionIdString action])

/-- `ImmutableStateManager.syncPendingActions` (src/a.js lines 411-429):
iterate a copy of the current pending list.  The final storage write is
external. -/
def syncPendingActions (remote : String → Bool) (m : Manager) :
    Manager × List String :=
  syncActionsLoop remote m (arrElems (objGet m.snap "pendingActions"))

/-- The ids of the actions currently queued in a manager's snapshot. -/
def pendingIds (m : Manager) : List String :=
  (arrElems (objGet m.snap "pendingActions")).map actionIdString

/-- Result of an optimistic toggle (`likeVideo`/`saveVideo`): the manager
afterwards, how the returned promise settles, and the remote endpoints
actually called. -/
structure ToggleResult where
  manager : Manager
  result : Except JSError Bool
  remoteCalls : List String

/-- `ImmutableStateManager.likeVideo` (src/a.js lines 322-358): read the
current membership, commit the flipped Set (awaited), then — inside
`try` — call the remote endpoint when online (success decided by
`remoteOk`) or queue a pending action when offline, invalidate the
video's cache entries, and return the new membership; on a remote
failure, commit a compensating Set restoring the original membership
(awaited) and re-throw.  `queueId` models the random id `queueAction`
would generate. -/
def likeVideo (m : Manager) (videoId : String) (remoteOk : Bool)
    (queueId : String) : ToggleResult :=
  let previousLiked := setHas (setElems (objGet m.snap "likedVideos")) (vStr videoId)
  let newLiked := !previousLiked
  let setId := m.nextId
  let m0 := { m with nextId := m.nextId + 1 }
  let r1 := setState m0 (.fn (fun s =>
    [("likedVideos", vSet setId (setFromList
      (if newLiked then setElems (objGet s "likedVideos") ++ [vStr videoId]
       else (setElems (objGet s "likedVideos")).filter
         (fun x => !(tripleEq x (vStr videoId))))))]))
  match r1.outcome with
  | .rejected e => { manager := r1.manager, result := .error e, remoteCalls := [] }
  | _ =>
    let m1 := r1.manager
    let url := "/videos/" ++ videoId ++ "/like"
    if jsTruthy (objGet m1.snap "online") then
      if remoteOk then
        let m2 := invalidateCache m1 ("video_" ++ videoId)
        { manager := m2, result := .ok newLiked, remoteCalls := [url] }
      else
        let rbId := m1.nextId
        let m1b := { m1 with nextId := m1.nextId + 1 }
        let r2 := setState m1b (.fn (fun s =>
          [("likedVideos", vSet rbId (setFromList
            (if previousLiked then setElems (objGet s "likedVideos") ++ [vStr videoId]
             else (setElems (objGet s "likedVideos")).filter
               (fun x => !(tripleEq x (vStr videoId))))))]))
        match r2.outcome with
        | .rejected e2 =>
          { manager := r2.manager, result := .error e2, remoteCalls := [url] }
        | _ =>
          { manager := r2.manager, result := .error (.remoteError url),
            remoteCalls := [url] }
    else
      let dataId := m1.nextId
      let m1c := { m1 with nextId := m1.nextId + 1 }
      let m2 := queueAction m1c "like"
        (vObj dataId [("videoId", vStr videoId), ("liked", vBool newLiked)]) queueId
      let m3 := invalidateCache m2 ("video_" ++ videoId)
      { manager := m3, result := .ok newLiked, remoteCalls := [] }

/-- `ImmutableStateManager.saveVideo` (src/a.js lines 360-394): as
`likeVideo` but on `savedVideos`, without the cache invalidation. -/
def saveVideo (m : Manager) (videoId : String) (remoteOk : Bool)
    (queueId : String) : ToggleResult :=
  let previousSaved := setHas (setElems (objGet m.snap "savedVideos")) (vStr videoId)
  let newSaved := !previousSaved
  let setId := m.nextId
  let m0 := { m with nextId := m.nextId + 1 }
  let r1 := setState m0 (.fn (fun s =>
    [("savedVideos", vSet setId (setFromList
      (if newSaved then setElems (objGet s "savedVideos") ++ [vStr videoId]
       else (setElems (objGet s "savedVideos")).filter
         (fun x => !(tripleEq x (vStr videoId))))))]))
  match r1.outcome with
  | .rejected e => { manager := r1.manager, result := .error e, remoteCalls := [] }
  | _ =>
    let m1 := r1.manager
    let url := "/videos/" ++ videoId ++ "/save"
    if jsTruthy (objGet m1.snap "online") then
      if remoteOk then
        { manager := m1, result := .ok newSaved, remoteCalls := [url] }
      else
        let rbId := m1.nextId
        let m1b := { m1 with nextId := m1.nextId + 1 }
        let r2 := setState m1b (.fn (fun s =>
          [("savedVideos", vSet rbId (setFromList
            (if previousSaved then setElems (objGet s "savedVideos") ++ [vStr videoId]
             else (setElems (objGet s "savedVideos")).filter
               (fun x => !(tripleEq x (vStr videoId))))))]))
        match r2.outcome with
        | .rejected e2 =>
          { manager := r2.manager, result := .error e2, remoteCalls := [url] }
        | _ =>
          { manager := r2.manager, result := .error (.remoteError url),
            remoteCalls := [url] }
    else
      let dataId := m1.nextId
      let m1c := { m1 with nextId := m1.nextId + 1 }
      let m2 := queueAction m1c "save"
        (vObj dataId [("videoId", vStr videoId), ("saved", vBool newSaved)]) queueId
      { manager := m2, result := .ok newSaved, remoteCalls := [] }

/-! ## Concrete scenario data -/

/-- A full-snapshot candidate that passes the validator. -/
def candA : Obj :=
  [("user", vNull), ("videos", vMap 100 []), ("likedVideos", vSet 101 []),
   ("savedVideos", vSet 102 []), ("online", vBool true), ("ui", vObj 103 [])]

/-- A second full-snapshot candidate that passes the validator. -/
def candB : Obj :=
  [("user", vNull), ("videos", vMap 110 []), ("likedVideos", vSet 111 []),
   ("savedVideos", vSet 112 []), ("online", vBool false), ("ui", vObj 113 [])]

/-- Updater committing `candA`. -/
def uA : Updater := .fn (fun _ => candA)

/-- Updater committing `candB`. -/
def uB : Updater := .fn (fun _ => candB)

/-- A candidate in which every nullable-typed schema field is `null`. -/
def nullishCandidate : Obj :=
  [("user", vNull), ("videos", vNull), ("likedVideos", vNull),
   ("savedVideos", vNull), ("online", vBool true), ("ui", vNull)]

/-- A pending `like` action with the given allocation id and action id. -/
def actOf (oid : Nat) (aid : String) : JSValue :=
  vObj oid [("type", vStr "like"),
            ("data", vObj (oid + 1) [("videoId", vStr aid), ("liked", vBool true)]),
            ("timestamp", vNum 0), ("id", vStr aid)]

/-- A manager whose queue holds actions `a`, `b`, `c` in that order. -/
def m3 : Manager :=
  { initialManager true with
    snap := mergeObj (initialSnap true)
      [("pendingActions", vArr 30 [actOf 31 "a", actOf 33 "b", actOf 35 "c"])],
    nextId := 40 }

/-- Remote oracle under which action `b` fails and the others succeed. -/
def oracle3 : String → Bool := fun aid => !(aid == "b")

/-- A cache entry for the `C7` scenario. -/
def entryV : JSValue := vObj 50 [("data", vStr "dv"), ("timestamp", vNum 0)]

/-- A second cache entry for the `C7` scenario. -/
def entryU : JSValue := vObj 51 [("data", vStr "du"), ("timestamp", vNum 0)]

/-- A manager caching the keys `cache_videos` and `cache_user`. -/
def m7 : Manager :=
  { initialManager true with
    snap := mergeObj (initialSnap true)
      [("cache", vMap 52 [(vStr "cache_videos", entryV), (vStr "cache_user", entryU)])],
    nextId := 60 }

/-- First `getOrCompute` call of the `C6` scenario (time 0, ttl 1000). -/
def c6first : Manager × JSValue × Nat :=
  getWithCache (initialManager true) "k" (vStr "d1") (some 1000)

/-- Second `getOrCompute` call, 500ms later, within the ttl window. -/
def c6second : Manager × JSValue × Nat :=
  getWithCache { c6first.1 with now := 500 } "k" (vStr "d2") (some 1000)

/-! ## C9 — in-flight submissions are dropped -/

/-- C9: a `setState` call made while another mutation is in flight (the
`isMutating` flag is set) is silently discarded for every updater: the
manager — snapshot, history, subscribers — is returned unchanged, no
notification happens, the updater is never invoked (the result does not
depend on it), and the returned promise resolves with `undefined`
rather than rejecting. -/
theorem inflight_drop (m : Manager) (u : Updater) (h : m.isMutating = true) :
    setState m u =
      { manager := m, outcome := Outcome.resolvedUndefined,
        invoked := [], subErrors := [] } := by
  simp [setState, submitCall, h]

/-- Witness: a concrete in-flight manager drops a concrete submission. -/
theorem inflight_drop_witness :
    ({ initialManager true with isMutating := true } : Manager).isMutating = true ∧
    setState { initialManager true with isMutating := true } uA =
      { manager := { initialManager true with isMutating := true },
        outcome := Outcome.resolvedUndefined, invoked := [], subErrors := [] } :=
  ⟨rfl, inflight_drop _ uA rfl⟩

/-! ## C2 — validation failure is atomic -/

/-- C2: an accepted submission whose candidate fields fail the schema
check rejects with the validation error (`StateValidationError`) and
leaves the manager exactly as it was: no new snapshot, no history entry,
no subscriber notification. -/
theorem validation_failure_atomic (m : Manager) (u : Updater)
    (hflag : m.isMutating = false)
    (hval : validateState (applyUpdater u m.snap) = false) :
    setState m u =
      { manager := m, outcome := Outcome.rejected JSError.validationError,
        invoked := [], subErrors := [] } := by
  cases m with
  | mk snap subs hist mutating nid now =>
    cases hflag
    simp [setState, submitCall, runMutation, hval]

/-- Witness: the partial cache patch of `getWithCache` fails validation
and is rejected atomically on a fresh manager. -/
theorem validation_failure_atomic_witness :
    (initialManager true).isMutating = false ∧
    validateState (applyUpdater (Updater.fn (fun _ => [("cache", vMap 9 [])]))
      (initialManager true).snap) = false ∧
    setState (initialManager true) (Updater.fn (fun _ => [("cache", vMap 9 [])])) =
      { manager := initialManager true,
        outcome := Outcome.rejected JSError.validationError,
        invoked := [], subErrors := [] } :=
  ⟨rfl, by decide, validation_failure_atomic _ _ rfl (by decide)⟩

/-! ## C10 — the validator's acceptance set -/

/-- C10: `validateState` accepts a candidate exactly when the `typeof` of
each of the six schema fields is in that field's allowed list; since
`typeof null` is `"object"`, the all-null candidate passes and commits;
and the result depends only on the `typeof` of the six schema fields, so
`pendingActions`, `cache` and `currentMediaIndexes` are never checked. -/
theorem validator_acceptance :
    (∀ s : Obj, validateState s = true ↔
      ((typeofJS (objGet s "user") = "object" ∨ typeofJS (objGet s "user") = "null") ∧
       typeofJS (objGet s "videos") = "object" ∧
       typeofJS (objGet s "likedVideos") = "object" ∧
       typeofJS (objGet s "savedVideos") = "object" ∧
       typeofJS (objGet s "online") = "boolean" ∧
       typeofJS (objGet s "ui") = "object")) ∧
    (validateState nullishCandidate = true ∧
     (setState (initialManager true) (Updater.fn (fun _ => nullishCandidate))).outcome
       = Outcome.resolved (mergeObj (initialSnap true) nullishCandidate)) ∧
    (∀ s t : Obj,
      typeofJS (objGet s "user") = typeofJS (objGet t "user") →
      typeofJS (objGet s "videos") = typeofJS (objGet t "videos") →
      typeofJS (objGet s "likedVideos") = typeofJS (objGet t "likedVideos") →
      typeofJS (objGet s "savedVideos") = typeofJS (objGet t "savedVideos") →
      typeofJS (objGet s "online") = typeofJS (objGet t "online") →
      typeofJS (objGet s "ui") = typeofJS (objGet t "ui") →
      validateState s = validateState t) := by
  refine ⟨fun s => ?_, ⟨by decide, rfl⟩, fun s t h1 h2 h3 h4 h5 h6 => ?_⟩
  · simp [validateState, schema, List.all_cons, List.all_nil,
      List.mem_cons, List.not_mem_nil, and_assoc]
  · simp only [validateState, schema, List.all_cons, List.all_nil, h1, h2, h3, h4, h5, h6]

/-- Witness: the all-null candidate passes, and adding unchecked fields
(`pendingActions`, `cache`) never changes the verdict. -/
theorem validator_acceptance_witness :
    (validateState nullishCandidate = true ↔
      ((typeofJS (objGet nullishCandidate "user") = "object" ∨
        typeofJS (objGet nullishCandidate "user") = "null") ∧
       typeofJS (objGet nullishCandidate "videos") = "object" ∧
       typeofJS (objGet nullishCandidate "likedVideos") = "object" ∧
       typeofJS (objGet nullishCandidate "savedVideos") = "object" ∧
       typeofJS (objGet nullishCandidate "online") = "boolean" ∧
       typeofJS (objGet nullishCandidate "ui") = "object")) ∧
    validateState (nullishCandidate ++ [("pendingActions", vArr 8 [vStr "junk"]), ("cache", vNum 3)])
      = validateState nullishCandidate :=
  ⟨validator_acceptance.1 nullishCandidate,
   validator_acceptance.2.2 _ nullishCandidate rfl rfl rfl rfl rfl rfl⟩

/-! ## C3 — offline replay (code bug) -/

/-- C3 at its failing input: with queue `[a, b, c]` where `a` succeeds
remotely and `b` fails, the loop attempts `a` then `b` and stops — but
the successful removal mutation for `a` is rejected by `validateState`
(the partial `pendingActions` patch lacks the six schema fields), so the
queue afterwards is still `[a, b, c]`, not the claimed `[b, c]`. -/
theorem replay_removal_bug :
    (syncPendingActions oracle3 m3).2 = ["a", "b"] ∧
    pendingIds (syncPendingActions oracle3 m3).1 = ["a", "b", "c"] ∧
    ¬(pendingIds (syncPendingActions oracle3 m3).1 = ["b", "c"]) :=
  ⟨by decide, by decide, by decide⟩

/-! ## C4 — optimistic toggle (code bug) -/

/-- C4 at its failing input: `likeVideo` on a fresh online manager never
gets to its optimistic state — the awaited optimistic `setState` is
rejected by `validateState` (partial `likedVideos` patch), so the call
rejects with the validation error, membership of `"X"` stays `false`, no
remote call is made and nothing is queued; `saveVideo` behaves the same
way. -/
theorem optimistic_toggle_bug :
    (likeVideo (initialManager true) "X" true "q1").result
      = Except.error JSError.validationError ∧
    (likeVideo (initialManager true) "X" true "q1").manager.snap
      = (initialManager true).snap ∧
    (likeVideo (initialManager true) "X" true "q1").remoteCalls = [] ∧
    setHas (setElems (objGet (likeVideo (initialManager true) "X" true "q1").manager.snap
      "likedVideos")) (vStr "X") = false ∧
    (saveVideo (initialManager true) "X" true "q1").result
      = Except.error JSError.validationError ∧
    (saveVideo (initialManager true) "X" true "q1").manager.snap
      = (initialManager true).snap ∧
    (saveVideo (initialManager true) "X" true "q1").remoteCalls = [] :=
  ⟨rfl, rfl, rfl, by decide, rfl, rfl, rfl⟩

/-! ## C6 — cache TTL (code bug) -/

/-- C6 at its failing input: the first `getOrCompute("k", ttl 1000)` call
invokes the producer, but its cache-store mutation is rejected by
`validateState` (partial `cache` patch), so the cache stays empty and a
second call 500ms later — inside the ttl window — invokes the producer
again: two invocations where the claim allows one. -/
theorem cache_store_bug :
    c6first.2.2 = 1 ∧
    mapEntries (objGet c6first.1.snap "cache") = [] ∧
    c6second.2.2 = 1 ∧
    c6first.2.2 + c6second.2.2 = 2 ∧
    ¬(c6first.2.2 + c6second.2.2 = 1) :=
  ⟨by decide, rfl, by decide, by decide, by decide⟩

/-! ## C7 — cache invalidation (code bug) -/

/-- C7 at its failing input: `invalidate("videos")` on a cache holding
`cache_videos` and `cache_user` removes nothing — its single mutation is
rejected by `validateState` (partial `cache` patch) — even though
`cache_videos` contains the pattern and the claim requires its removal. -/
theorem invalidate_noop_bug :
    (invalidateCache m7 "videos").snap = m7.snap ∧
    strIncludes "cache_videos" "videos" = true ∧
    mapGet (mapEntries (objGet (invalidateCache m7 "videos").snap "cache"))
      (vStr "cache_videos") = entryV ∧
    ¬(typeofJS (mapGet (mapEntries (objGet (invalidateCache m7 "videos").snap "cache"))
      (vStr "cache_videos")) = "undefined") :=
  ⟨rfl, by decide, rfl, by decide⟩

/-! ## C1 — mutation serialization -/

/-- Guard heads run with the flag already up accept nothing. -/
theorem submitPhase_busy (us : List Updater) (m : Manager)
    (h : m.isMutating = true) :
    submitPhase m us = (m, us.map (fun _ => false)) := by
  induction us with
  | nil => simp [submitPhase]
  | cons u rest ih => simp [submitPhase, submitCall, h, ih]

/-- Dropped submissions leave the manager alone and resolve undefined. -/
theorem runPhase_all_false (us : List Updater) (m : Manager) :
    runPhase m (us.map (fun u => (u, false)))
      = (m, us.map (fun _ => Outcome.resolvedUndefined)) := by
  induction us generalizing m with
  | nil => simp [runPhase]
  | cons u rest ih => simp [runPhase, ih]

/-- Zipping a list with a constant-`false` copy of itself. -/
theorem zip_self_false (us : List Updater) :
    us.zip (us.map (fun _ => false)) = us.map (fun u => (u, false)) := by
  induction us with
  | nil => rfl
  | cons u rest ih => simp only [List.map_cons, List.zip_cons_cons, ih]

/-- C1 counterexample: two `setState` calls in the same tick on a fresh
manager.  Only the first commits; the second is dropped and its promise
resolves with `undefined`, so the history shows one commit, not the two
the claim requires. -/
theorem submit_burst_drops_counterexample :
    (concurrentSubmits (initialManager true) [uA, uB]).2
      = [Outcome.resolved (mergeObj (initialSnap true) candA),
         Outcome.resolvedUndefined] ∧
    (concurrentSubmits (initialManager true) [uA, uB]).1.history.length = 1 ∧
    ¬((concurrentSubmits (initialManager true) [uA, uB]).1.history.length = 2) :=
  ⟨rfl, by decide, by decide⟩

/-- C1 amended: (i) of a burst of submissions made while the first is
still in flight, only the first is accepted and runs; every later one is
discarded with a promise that resolves `undefined`; (ii) submissions
issued sequentially (each after the previous settles) are all accepted
and — when each candidate validates — commit in submission order with no
interleaving, commit `K+1` starting from commit `K`'s result, and each
promise resolves with the snapshot its own commit produced. -/
theorem submit_serialization_amended :
    (∀ (m : Manager) (u : Updater) (rest : List Updater), m.isMutating = false →
      concurrentSubmits m (u :: rest)
        = ((runMutation { m with isMutating := true } u).manager,
           (runMutation { m with isMutating := true } u).outcome
             :: rest.map (fun _ => Outcome.resolvedUndefined))) ∧
    (∀ (us : List Updater) (m : Manager), m.isMutating = false →
      allValidSeq m.snap us = true →
      (seqSubmits m us).2 = (chainSnaps m.snap us).map Outcome.resolved ∧
      (seqSubmits m us).1.snap = (chainSnaps m.snap us).getLastD m.snap ∧
      (seqSubmits m us).1.isMutating = false) := by
  constructor
  · intro m u rest h
    have hsp : submitPhase m (u :: rest)
        = ({ m with isMutating := true }, true :: rest.map (fun _ => false)) := by
      simp [submitPhase, submitCall, h,
        submitPhase_busy rest { m with isMutating := true } rfl]
    have step1 : concurrentSubmits m (u :: rest)
        = runPhase { m with isMutating := true }
            ((u :: rest).zip (true :: rest.map (fun _ => false))) := by
      unfold concurrentSubmits
      rw [hsp]
    rw [step1, List.zip_cons_cons, zip_self_false]
    have step2 : runPhase { m with isMutating := true }
        ((u, true) :: rest.map (fun u => (u, false)))
        = ((runPhase (runMutation { m with isMutating := true } u).manager
            (rest.map (fun u => (u, false)))).1,
           (runMutation { m with isMutating := true } u).outcome ::
           (runPhase (runMutation { m with isMutating := true } u).manager
            (rest.map (fun u => (u, false)))).2) := rfl
    rw [step2, runPhase_all_false]
  · intro us
    induction us with
    | nil => intro m h _; exact ⟨rfl, rfl, h⟩
    | cons u rest ih =>
      intro m h hv
      rw [allValidSeq, Bool.and_eq_true] at hv
      obtain ⟨hv1, hv2⟩ := hv
      have hout : (setState m u).outcome
          = Outcome.resolved (mergeObj m.snap (applyUpdater u m.snap)) := by
        simp [setState, submitCall, h, runMutation, hv1]
      have hsnap : (setState m u).manager.snap
          = mergeObj m.snap (applyUpdater u m.snap) := by
        simp [setState, submitCall, h, runMutation, hv1]
      have hmut : (setState m u).manager.isMutating = false := by
        simp [setState, submitCall, h, runMutation, hv1]
      have hrec := ih (setState m u).manager hmut (by rw [hsnap]; exact hv2)
      refine ⟨?_, ?_, hrec.2.2⟩
      · show (setState m u).outcome :: (seqSubmits (setState m u).manager rest).2 = _
        rw [hrec.1, hsnap, hout]
        simp only [chainSnaps, List.map_cons]
      · show (seqSubmits (setState m u).manager rest).1.snap = _
        rw [hrec.2.1, hsnap]
        simp only [chainSnaps, List.getLastD_cons]

/-- Witness: a concrete burst (second call dropped) and a concrete valid
sequential chain (both commits, in order). -/
theorem submit_serialization_amended_witness :
    (initialManager true).isMutating = false ∧
    concurrentSubmits (initialManager true) [uA, uB]
      = ((runMutation { initialManager true with isMutating := true } uA).manager,
         (runMutation { initialManager true with isMutating := true } uA).outcome
           :: [uB].map (fun _ => Outcome.resolvedUndefined)) ∧
    allValidSeq (initialManager true).snap [uA, uB] = true ∧
    (seqSubmits (initialManager true) [uA, uB]).2
      = (chainSnaps (initialManager true).snap [uA, uB]).map Outcome.resolved :=
  ⟨rfl, submit_serialization_amended.1 _ uA [uB] rfl,
   by decide,
   (submit_serialization_amended.2 [uA, uB] _ rfl (by decide)).1⟩

/-! ## C8 — subscriber isolation -/

/-- C8: whatever callbacks throw, every callback registered for every
changed field and every wildcard callback is still invoked for the
commit; each throwing callback's failure is caught and logged; and the
mutation caller still sees its promise resolve with the committed
snapshot — subscriber exceptions never propagate to it. -/
theorem subscriber_isolation :
    (∀ (subs : List (String × List Callback)) (prev cur : Obj),
      (∀ k ∈ getChangedKeys prev cur, ∀ cb ∈ subsFor subs k,
        Invocation.mk cb.cbId k ∈ (notifySubscribers subs prev cur).1) ∧
      (∀ cb ∈ subsFor subs "*",
        Invocation.mk cb.cbId "*" ∈ (notifySubscribers subs prev cur).1) ∧
      (∀ k ∈ getChangedKeys prev cur, ∀ cb ∈ subsFor subs k, cb.throws = true →
        cb.cbId ∈ (notifySubscribers subs prev cur).2) ∧
      (∀ cb ∈ subsFor subs "*", cb.throws = true →
        cb.cbId ∈ (notifySubscribers subs prev cur).2)) ∧
    (∀ (m : Manager) (u : Updater), m.isMutating = false →
      validateState (applyUpdater u m.snap) = true →
      (setState m u).outcome
        = Outcome.resolved (mergeObj m.snap (applyUpdater u m.snap))) := by
  constructor
  · intro subs prev cur
    refine ⟨fun k hk cb hcb => ?_, fun cb hcb => ?_,
            fun k hk cb hcb hthrow => ?_, fun cb hcb hthrow => ?_⟩
    · simp only [notifySubscribers, List.mem_append, List.mem_flatMap, List.mem_map]
      exact Or.inl ⟨k, hk, cb, hcb, rfl⟩
    · simp only [notifySubscribers, List.mem_append, List.mem_map]
      exact Or.inr ⟨cb, hcb, rfl⟩
    · simp only [notifySubscribers, List.mem_append, List.mem_flatMap, List.mem_map,
        List.mem_filter]
      exact Or.inl ⟨k, hk, cb, ⟨hcb, hthrow⟩, rfl⟩
    · simp only [notifySubscribers, List.mem_append, List.mem_map, List.mem_filter]
      exact Or.inr ⟨cb, ⟨hcb, hthrow⟩, rfl⟩
  · intro m u h hv
    simp [setState, submitCall, h, runMutation, hv]

/-- A full-snapshot candidate whose `videos` map is non-empty, so the
`videos` field registers as changed. -/
def candW : Obj :=
  [("user", vNull),
   ("videos", vMap 120 [(vStr "v1", vObj 121 [("id", vStr "v1")])]),
   ("likedVideos", vSet 122 []), ("savedVideos", vSet 123 []),
   ("online", vBool true), ("ui", vObj 124 [])]

/-- Updater committing `candW`. -/
def uW : Updater := .fn (fun _ => candW)

/-- Witness: with a throwing subscriber on `videos` and a wildcard
subscriber, a commit that changes `videos` still invokes both, logs the
thrown error, and resolves for the caller. -/
theorem subscriber_isolation_witness :
    (Invocation.mk 1 "videos" ∈
      (notifySubscribers [("videos", [⟨1, true⟩]), ("*", [⟨2, false⟩])]
        (initialSnap true) (mergeObj (initialSnap true) candW)).1) ∧
    (Invocation.mk 2 "*" ∈
      (notifySubscribers [("videos", [⟨1, true⟩]), ("*", [⟨2, false⟩])]
        (initialSnap true) (mergeObj (initialSnap true) candW)).1) ∧
    (1 ∈
      (notifySubscribers [("videos", [⟨1, true⟩]), ("*", [⟨2, false⟩])]
        (initialSnap true) (mergeObj (initialSnap true) candW)).2) ∧
    (setState { initialManager true with
        subscribers := [("videos", [⟨1, true⟩]), ("*", [⟨2, false⟩])] } uW).outcome
      = Outcome.resolved (mergeObj (initialSnap true) candW) :=
  ⟨(subscriber_isolation.1 _ _ _).1 "videos" (by decide) ⟨1, true⟩ (by decide),
   (subscriber_isolation.1 _ _ _).2.1 ⟨2, false⟩ (by decide),
   (subscriber_isolation.1 _ _ _).2.2.1 "videos" (by decide) ⟨1, true⟩ (by decide) rfl,
   subscriber_isolation.2 _ uW rfl (by decide)⟩

/-! ## C5 — change detection

`===` is an equivalence on values; `identKey` is a canonical tag with
`tripleEq a b = true ↔ identKey a = identKey b`, which lets list facts
about `===`-membership ride on decidable equality of tags. -/

/-- Canonical identity tag of a value under `===`. -/
inductive IdentKey : Type where
  | kUndef : IdentKey
  | kNull : IdentKey
  | kBool : Bool → IdentKey
  | kNum : Int → IdentKey
  | kStr : String → IdentKey
  | kObj : Nat → IdentKey
  | kArr : Nat → IdentKey
  | kMap : Nat → IdentKey
  | kSet : Nat → IdentKey
  deriving DecidableEq

/-- The identity tag of a value. -/
def identKey : JSValue → IdentKey
  | vUndef => .kUndef
  | vNull => .kNull
  | vBool b => .kBool b
  | vNum n => .kNum n
  | vStr s => .kStr s
  | vObj i _ => .kObj i
  | vArr i _ => .kArr i
  | vMap i _ => .kMap i
  | vSet i _ => .kSet i

/-- `===` is exactly equality of identity tags. -/
theorem tripleEq_true_iff (a b : JSValue) :
    tripleEq a b = true ↔ identKey a = identKey b := by
  cases a <;> cases b <;> simp [tripleEq, identKey]

/-- `===` is reflexive. -/
theorem tripleEq_refl (a : JSValue) : tripleEq a a = true :=
  (tripleEq_true_iff a a).mpr rfl

/-- Set membership in terms of identity tags. -/
theorem setHas_true_iff (xs : List JSValue) (x : JSValue) :
    setHas xs x = true ↔ identKey x ∈ xs.map identKey := by
  simp only [setHas, List.any_eq_true, tripleEq_true_iff, List.mem_map]

/-- A value is denotable when it could be a real JS heap value: a Map has
no two `===`-equal keys and a Set no two `===`-equal elements (real JS
Maps and Sets are keyed by SameValueZero, so duplicates cannot occur). -/
def denotableVal : JSValue → Prop
  | vMap _ es => (es.map (fun kv => identKey kv.1)).Nodup
  | vSet _ xs => (xs.map identKey).Nodup
  | _ => True

instance (v : JSValue) : Decidable (denotableVal v) := by
  cases v <;> simp only [denotableVal] <;> infer_instance

/-- The claim's equality, as stated: Maps equal iff same size and same
key-to-value pairs; Sets equal iff same size and same members; every
other pair compared by reference/value equality (`===`). -/
def specEqOriginal (a b : JSValue) : Bool :=
  match a, b with
  | vMap _ ea, vMap _ eb =>
    (ea.length == eb.length
      && ea.all (fun kv => tripleEq (mapGet eb kv.1) kv.2))
      && eb.all (fun kv => tripleEq (mapGet ea kv.1) kv.2)
  | vSet _ xa, vSet _ xb =>
    (xa.length == xb.length && xa.all (fun x => setHas xb x))
      && xb.all (fun x => setHas xa x)
  | _, _ => tripleEq a b

/-- The amended equality: Maps equal iff same size and every key-to-value
pair of the first occurs in the second (value compared by `===`, a
missing key reading as `undefined`); Sets equal iff same size and same
members; any other pair — including a Map against a Set or a plain
object — equal iff `===` or their JSON serializations coincide. -/
def specEqAmended (a b : JSValue) : Bool :=
  match a, b with
  | vMap _ ea, vMap _ eb =>
    ea.length == eb.length && ea.all (fun kv => tripleEq (mapGet eb kv.1) kv.2)
  | vSet _ xa, vSet _ xb =>
    (xa.length == xb.length && xa.all (fun x => setHas xb x))
      && xb.all (fun x => setHas xa x)
  | _, _ => tripleEq a b || jsonStringify a == jsonStringify b

/-- In a duplicate-free Map every entry is found by its own key. -/
theorem mapGet_entry (es : List (JSValue × JSValue))
    (hnd : (es.map (fun kv => identKey kv.1)).Nodup) :
    ∀ kv ∈ es, tripleEq (mapGet es kv.1) kv.2 = true := by
  induction es with
  | nil => intro kv h; cases h
  | cons e rest ih =>
    rw [List.map_cons, List.nodup_cons] at hnd
    intro kv hkv
    rcases List.mem_cons.mp hkv with rfl | hmem
    · rw [mapGet, if_pos (tripleEq_refl kv.1)]
      exact tripleEq_refl kv.2
    · have hne : ¬(tripleEq e.1 kv.1 = true) := by
        rw [tripleEq_true_iff]
        intro hkk
        exact hnd.1 (hkk ▸ List.mem_map_of_mem (fun kv => identKey kv.1) hmem)
      rw [mapGet, if_neg hne]
      exact ih hnd.2 kv hmem

/-- Pigeonhole for duplicate-free Sets: equal sizes plus one-sided
`===`-containment forces containment the other way. -/
theorem setHas_two_sided (xa xb : List JSValue)
    (hna : (xa.map identKey).Nodup) (hnb : (xb.map identKey).Nodup)
    (hlen : xa.length = xb.length)
    (hsub : ∀ x ∈ xa, setHas xb x = true) :
    ∀ y ∈ xb, setHas xa y = true := by
  have hfin : (xa.map identKey).toFinset = (xb.map identKey).toFinset := by
    apply Finset.eq_of_subset_of_card_le
    · intro t ht
      rw [List.mem_toFinset] at ht ⊢
      rcases List.mem_map.mp ht with ⟨x, hx, rfl⟩
      exact (setHas_true_iff xb x).mp (hsub x hx)
    · rw [List.toFinset_card_of_nodup hna, List.toFinset_card_of_nodup hnb,
        List.length_map, List.length_map, hlen]
  intro y hy
  rw [setHas_true_iff, ← List.mem_toFinset, hfin, List.mem_toFinset]
  exact List.mem_map_of_mem identKey hy

/-- On denotable, identity-coherent values, the code's `isEqual` computes
exactly the amended specification equality. -/
theorem isEqual_eq_specEqAmended (a b : JSValue)
    (ha : denotableVal a) (hb : denotableVal b)
    (hco : tripleEq a b = true → a = b) :
    isEqual a b = specEqAmended a b := by
  by_cases h : tripleEq a b = true
  · cases hco h
    have hie : isEqual a a = true := by
      unfold isEqual
      rw [if_pos (tripleEq_refl a)]
    rw [hie]
    symm
    cases a with
    | vMap i es =>
      have hall : es.all (fun kv => tripleEq (mapGet es kv.1) kv.2) = true :=
        List.all_eq_true.mpr (mapGet_entry es ha)
      simp [specEqAmended, hall]
    | vSet i xs =>
      have hall : xs.all (fun x => setHas xs x) = true :=
        List.all_eq_true.mpr (fun x hx =>
          List.any_eq_true.mpr ⟨x, hx, tripleEq_refl x⟩)
      simp [specEqAmended, hall]
    | vUndef => simp [specEqAmended, tripleEq_refl]
    | vNull => simp [specEqAmended, tripleEq_refl]
    | vBool x => simp [specEqAmended, tripleEq_refl]
    | vNum x => simp [specEqAmended, tripleEq_refl]
    | vStr x => simp [specEqAmended, tripleEq_refl]
    | vObj i fs => simp [specEqAmended, tripleEq_refl]
    | vArr i xs => simp [specEqAmended, tripleEq_refl]
  · have hf : tripleEq a b = false := by
      cases htb : tripleEq a b
      · rfl
      · exact absurd htb h
    unfold isEqual
    rw [if_neg h]
    cases a <;> cases b <;> simp only [specEqAmended, hf, Bool.false_or]
    rename_i i xs j ys
    cases hcode : (xs.length == ys.length && xs.all (fun x => setHas ys x)) with
    | false => simp [hcode]
    | true =>
      rw [Bool.and_eq_true] at hcode
      have hother : ys.all (fun y => setHas xs y) = true :=
        List.all_eq_true.mpr
          (setHas_two_sided xs ys ha hb (by simpa using hcode.1)
            (List.all_eq_true.mp hcode.2))
      simp [hcode.1, hcode.2, hother]

/-- C5 counterexample: two realizable snapshot pairs on which the code
disagrees with the claim's equality.  The `ui` objects are distinct
allocations with identical contents (not `===`, so the claim reports a
change) yet `getChangedKeys` treats them as equal via JSON; the `videos`
Maps `\x7b k ↦ undefined \x7d` and `\x7b j ↦ "x" \x7d` have no key-value
pair in common (the claim reports a change) yet the code's one-sided
lookup sees `undefined` on both sides and treats them as equal.  So the
code returns no changed keys where the claim requires `[ui, videos]`. -/
theorem change_detection_counterexample :
    getChangedKeys
      [("ui", vObj 10 [("theme", vStr "dark")]),
       ("videos", vMap 20 [(vStr "k", vUndef)])]
      [("ui", vObj 11 [("theme", vStr "dark")]),
       ("videos", vMap 21 [(vStr "j", vStr "x")])] = [] ∧
    (dedupFirst (objKeys
        [("ui", vObj 10 [("theme", vStr "dark")]),
         ("videos", vMap 20 [(vStr "k", vUndef)])] ++ objKeys
        [("ui", vObj 11 [("theme", vStr "dark")]),
         ("videos", vMap 21 [(vStr "j", vStr "x")])])).filter
      (fun k => !(specEqOriginal
        (objGet [("ui", vObj 10 [("theme", vStr "dark")]),
                 ("videos", vMap 20 [(vStr "k", vUndef)])] k)
        (objGet [("ui", vObj 11 [("theme", vStr "dark")]),
                 ("videos", vMap 21 [(vStr "j", vStr "x")])] k)))
      = ["ui", "videos"] ∧
    ¬(([] : List String) = ["ui", "videos"]) :=
  ⟨by decide, by decide, by decide⟩

/-- C5 amended: on snapshots whose field values are denotable (Maps and
Sets duplicate-free, as real JS collections are) and identity-coherent
(`===` field values are the same allocation), `getChangedKeys` returns
exactly the top-level keys whose values the amended equality rejects:
Maps equal iff same size with every key-value pair of the previous Map
found in the current one by `===` (missing keys reading as `undefined`);
Sets equal iff same size and same members; anything else equal iff `===`
or equal JSON serializations. -/
theorem change_detection_amended (prev cur : Obj)
    (hwf : ∀ k ∈ dedupFirst (objKeys prev ++ objKeys cur),
      denotableVal (objGet prev k) ∧ denotableVal (objGet cur k) ∧
      (tripleEq (objGet prev k) (objGet cur k) = true →
        objGet prev k = objGet cur k)) :
    getChangedKeys prev cur
      = (dedupFirst (objKeys prev ++ objKeys cur)).filter
          (fun k => !(specEqAmended (objGet prev k) (objGet cur k))) := by
  unfold getChangedKeys
  apply List.filter_congr
  intro k hk
  obtain ⟨h1, h2, h3⟩ := hwf k hk
  rw [isEqual_eq_specEqAmended _ _ h1 h2 h3]

/-- Witness: a concrete snapshot pair (primitive change on `a`, equal
fresh Sets on `b`) on which the characterization evaluates. -/
theorem change_detection_amended_witness :
    getChangedKeys
      [("a", vNull), ("b", vSet 70 [vStr "x"])]
      [("a", vBool true), ("b", vSet 71 [vStr "x"])]
      = (dedupFirst (objKeys [("a", vNull), ("b", vSet 70 [vStr "x"])] ++
          objKeys [("a", vBool true), ("b", vSet 71 [vStr "x"])])).filter
          (fun k => !(specEqAmended
            (objGet [("a", vNull), ("b", vSet 70 [vStr "x"])] k)
            (objGet [("a", vBool true), ("b", vSet 71 [vStr "x"])] k))) :=
  change_detection_amended _ _ (by
    intro k hk
    rw [show dedupFirst (objKeys [("a", vNull), ("b", vSet 70 [vStr "x"])] ++
        objKeys [("a", vBool true), ("b", vSet 71 [vStr "x"])]) = ["a", "b"] from rfl] at hk
    rcases List.mem_cons.mp hk with rfl | hk
    · exact ⟨by decide, by decide, fun hco => absurd hco (by decide)⟩
    rcases List.mem_cons.mp hk with rfl | hk
    · exact ⟨by decide, by decide, fun hco => absurd hco (by decide)⟩
    cases hk)

end SocialFlow
